import Mathlib

/-!
# Verification of the node-logger message-dispatch core

Shallow embedding of the logging library (`src/src/index.ts` and the
`logFunctions`-list variant of the same module) together with proofs about
its level filtering, tag handling, dual-destination fan-out, JSON
formatting and logger construction.

Conventions used throughout the embedding:
* JavaScript exceptions are modelled by `Option` (`none` = the operation
  throws); `Promise<void>` results of log functions are modelled by the
  list of `(sink, text)` writes they perform.
* Machine strings are Lean `String`s; `os.EOL` is modelled for a POSIX
  host as `"\n"`.
* `undefined` and the other JavaScript values reaching the dispatch code
  are modelled by the `JsValue` universe below.
-/

namespace NodeLogger

/-- The `LogLevel` enumeration keys, in declaration order
(`Object.keys(LogLevel)`): OFF, ERROR, WARN, INFO, DEBUG. -/
def logLevelNames : List String := ["OFF", "ERROR", "WARN", "INFO", "DEBUG"]

/-- JavaScript `Array.prototype.indexOf` on a list of strings: the index of
the first occurrence, `-1` if the element is absent. -/
def jsIndexOf (s : String) : List String → Int
  | [] => -1
  | x :: xs =>
    if x = s then 0
    else
      let r := jsIndexOf s xs
      if r = -1 then -1 else r + 1

/-- `checkLoglevel` succeeds (does not throw) iff the token occurs in
`logLevelNames`.  The source throws an `Error` when
`logLevelNames.indexOf(loglevel) === -1`; `true` here means "no throw". -/
def checkLoglevel (loglevel : String) : Bool :=
  !(jsIndexOf loglevel logLevelNames = -1)

/-- `String.prototype.toUpperCase`, character by character (the relevant
alphabet — level tokens — is ASCII). -/
def jsToUpperCase (s : String) : String :=
  String.mk (s.data.map Char.toUpper)

/-- `isFirstLoglevelGreaterEqualSecond` from the source: uppercases the
first token, validates it with `checkLoglevel` (throwing — `none` — if it
is unknown), then compares the `indexOf` positions of the two tokens.
Note that the second token is neither uppercased nor validated: an unknown
second token has index `-1` and the comparison still returns a boolean. -/
def isFirstLoglevelGreaterEqualSecond (firstLoglevel secondLoglevel : String) : Option Bool :=
  let first := jsToUpperCase firstLoglevel
  if checkLoglevel first then
    some (decide (jsIndexOf first logLevelNames ≥ jsIndexOf secondLoglevel logLevelNames))
  else
    none

/-- The universe of JavaScript values that reach the dispatch code in this
embedding: `undefined`, strings, arrays of strings (tag lists), and
`Error` objects carrying their message and stack-trace string. -/
inductive JsValue where
  | undef
  | str (s : String)
  | strArr (l : List String)
  | err (msg : String) (stack : String)
deriving DecidableEq, Repr

/-- `String(v)` / `%s` conversion of a modelled JavaScript value. -/
def jsStringOf : JsValue → String
  | .undef => "undefined"
  | .str s => s
  | .strArr l => String.intercalate "," l
  | .err msg _ => "Error: " ++ msg

/-- `util.inspect` (node v4 era) restricted to the modelled values:
strings are quoted, errors render as `[Error: msg]`. -/
def utilInspect : JsValue → String
  | .undef => "undefined"
  | .str s => "'" ++ s ++ "'"
  | .strArr l => "[ " ++ String.intercalate ", " (l.map (fun s => "'" ++ s ++ "'")) ++ " ]"
  | .err msg _ => "[Error: " ++ msg ++ "]"

/-- `Number(v)` rendered as a string, for `%d`; the model covers
non-negative decimal strings, everything else is `NaN`. -/
def jsNumberStr : JsValue → String
  | .str s => match s.toNat? with
    | some n => toString n
    | none => "NaN"
  | _ => "NaN"

/-- `JSON.stringify(v)` for `%j`, restricted to the modelled values (an
`Error` object has no enumerable own properties, hence `\x7b\x7d`). -/
def jsJsonStr : JsValue → String
  | .undef => "undefined"
  | .str s => "\"" ++ s ++ "\""
  | .strArr l => "[" ++ String.intercalate "," (l.map (fun s => "\"" ++ s ++ "\"")) ++ "]"
  | .err _ _ => "\x7b\x7d"

/-- One placeholder substitution of `util.format`. -/
def fmtPlaceholder (c : Char) (a : JsValue) : String :=
  if c = 's' then jsStringOf a
  else if c = 'd' then jsNumberStr a
  else jsJsonStr a

/-- The placeholder scan of `util.format` over a format string: consumes
`%s`/`%d`/`%j` with the next argument, `%%` as a literal percent, leaves
other text (and placeholders in excess of the arguments) unchanged;
returns the substituted text and the unconsumed arguments. -/
def substFmt : List Char → List JsValue → String × List JsValue
  | [], args => ("", args)
  | '%' :: c :: cs, args =>
    if c = '%' then
      let (r, rest) := substFmt cs args
      ("%" ++ r, rest)
    else if c = 's' || c = 'd' || c = 'j' then
      match args with
      | [] =>
        let (r, rest) := substFmt cs []
        ("%" ++ String.singleton c ++ r, rest)
      | a :: args' =>
        let (r, rest) := substFmt cs args'
        (fmtPlaceholder c a ++ r, rest)
    else
      let (r, rest) := substFmt cs args
      ("%" ++ String.singleton c ++ r, rest)
  | c :: cs, args =>
    let (r, rest) := substFmt cs args
    (String.singleton c ++ r, rest)

/-- How `util.format` appends an argument left over after substitution:
objects (here: errors) are inspected, primitives are `String(..)`-ed. -/
def extraArg : JsValue → String
  | .err msg stack => utilInspect (.err msg stack)
  | .strArr l => utilInspect (.strArr l)
  | v => jsStringOf v

/-- `util.format` (node v4 era) over the modelled values: a single
argument is returned as-is when it is a string and inspected otherwise;
a string format with arguments goes through placeholder substitution with
left-over arguments appended; a non-string format with arguments inspects
everything joined by spaces. -/
def utilFormat : JsValue → List JsValue → String
  | .str s, [] => s
  | f, [] => utilInspect f
  | .str s, args =>
    let (r, rest) := substFmt s.data args
    r ++ String.join (rest.map (fun a => " " ++ extraArg a))
  | f, args => String.intercalate " " ((f :: args).map utilInspect)

/-- The `Message` record built once per log call (`isoDate` string, level,
merged tags, formatted text, optional stack trace).  The variant module
stores a `Date` and derives the ISO string inside the log functions; both
serialise the same `isoDate` string field, which is what this record
carries. -/
structure Message where
  isoDate : String
  level : String
  tags : List String
  text : String
  stack : Option String
deriving DecidableEq, Repr

/-- A resolved destination: the sink's identity plus its `isTTY` property
(`none` models a stream on which the property is absent, as for files and
pipes; `some b` models a stream carrying `isTTY = b`). -/
structure Sink where
  id : Nat
  isTTYProp : Option Bool
deriving DecidableEq, Repr

/-- `isTty` from `src/src/index.ts`: truthiness of
`writableStream && (writableStream.isTTY || false)` — `false` for an
absent stream and for an absent or falsy `isTTY` property. -/
def isTty : Option Sink → Bool
  | none => false
  | some s => s.isTTYProp.getD false

/-- A `tags` argument as declared (`string[] | string`). -/
inductive TagsArg where
  | one (s : String)
  | many (l : List String)
deriving DecidableEq, Repr

/-- `[].concat(tags)`: a lone string becomes a one-element list, an array
is taken as-is. -/
def TagsArg.toList : TagsArg → List String
  | .one s => [s]
  | .many l => l

/-- `os.EOL` on the POSIX host the logger runs on. -/
def EOL : String := "\n"

/-- Lower-case hexadecimal digit for `n < 16`, as emitted by
`JSON.stringify` in `\u00..` escapes. -/
def hexDigitChar (n : Nat) : Char :=
  if n < 10 then Char.ofNat (48 + n) else Char.ofNat (87 + n)

/-- `JSON.stringify` escaping of a single character inside a JSON string:
quote and backslash get a backslash escape, the named control characters
get their short escapes, the remaining control characters become
`\u00xy`, and every other character is emitted verbatim. -/
def escChar (c : Char) : List Char :=
  if c = '"' then ['\\', '"']
  else if c = '\\' then ['\\', '\\']
  else if c = Char.ofNat 8 then ['\\', 'b']
  else if c = Char.ofNat 9 then ['\\', 't']
  else if c = Char.ofNat 10 then ['\\', 'n']
  else if c = Char.ofNat 12 then ['\\', 'f']
  else if c = Char.ofNat 13 then ['\\', 'r']
  else if c.toNat < 32 then
    ['\\', 'u', '0', '0', hexDigitChar (c.toNat / 16), hexDigitChar (c.toNat % 16)]
  else [c]

/-- `JSON.stringify` escaping of the characters of a string (without the
surrounding quotes). -/
def escStr (s : String) : List Char :=
  (s.data.map escChar).flatten

/-- The comma-separated body of `JSON.stringify` of an array of strings
(without the surrounding brackets): each element quoted and escaped. -/
def tagsBody : List String → List Char
  | [] => []
  | [t] => '"' :: escStr t ++ ['"']
  | t :: ts => '"' :: escStr t ++ '"' :: ',' :: tagsBody ts

/-- `JSON.stringify(message)`: the serialised message record with its
fields in insertion order `isoDate`, `level`, `tags`, `text` and, only
when present, `stack` — exactly the object built by the logger (the
variant module assembles the same record via
`Object.assign(\x7bisoDate\x7d, message)` followed by `delete date`). -/
def msgJson (m : Message) : List Char :=
  ("\x7b\"isoDate\":\"").data ++ escStr m.isoDate
    ++ ("\",\"level\":\"").data ++ escStr m.level
    ++ ("\",\"tags\":[").data ++ tagsBody m.tags
    ++ ("],\"text\":\"").data ++ escStr m.text
    ++ (match m.stack with
        | none => ("\"\x7d").data
        | some st => ("\",\"stack\":\"").data ++ escStr st ++ ("\"\x7d").data)

/-- The single output line of the JSON log function:
`JSON.stringify(message) + EOL`. -/
def defaultJsonLine (m : Message) : String :=
  String.mk (msgJson m ++ EOL.data)

/-- Numeric value of a hexadecimal digit character, `none` for
non-digits. -/
def hexVal (c : Char) : Option Nat :=
  if '0' ≤ c ∧ c ≤ '9' then some (c.toNat - 48)
  else if 'a' ≤ c ∧ c ≤ 'f' then some (c.toNat - 87)
  else if 'A' ≤ c ∧ c ≤ 'F' then some (c.toNat - 55)
  else none

/-- Decoding of a single-character JSON escape (`\"`, `\\`, `\/`, `\b`,
`\t`, `\n`, `\f`, `\r`). -/
def escDecode (c : Char) : Option Char :=
  if c = '"' then some '"'
  else if c = '\\' then some '\\'
  else if c = '/' then some '/'
  else if c = 'b' then some (Char.ofNat 8)
  else if c = 't' then some (Char.ofNat 9)
  else if c = 'n' then some (Char.ofNat 10)
  else if c = 'f' then some (Char.ofNat 12)
  else if c = 'r' then some (Char.ofNat 13)
  else none

/-- JSON string-body parser (fuelled): consumes characters up to and
including the closing quote, decoding escapes, and returns the decoded
characters together with the unconsumed input.  One unit of fuel is spent
per decoded character, so fuel `≥` the decoded length always suffices. -/
def parseJsStr : Nat → List Char → Option (List Char × List Char)
  | _, [] => none
  | fuel, c :: rest =>
    if c = '"' then some ([], rest)
    else
      match fuel with
      | 0 => none
      | fuel' + 1 =>
        if c = '\\' then
          match rest with
          | 'u' :: h1 :: h2 :: h3 :: h4 :: rest2 =>
            match hexVal h1, hexVal h2, hexVal h3, hexVal h4 with
            | some a, some b, some c2, some d =>
              (parseJsStr fuel' rest2).map
                (fun p => (Char.ofNat (((a * 16 + b) * 16 + c2) * 16 + d) :: p.1, p.2))
            | _, _, _, _ => none
          | e :: rest2 =>
            match escDecode e with
            | some ch => (parseJsStr fuel' rest2).map (fun p => (ch :: p.1, p.2))
            | none => none
          | [] => none
        else
          (parseJsStr fuel' rest).map (fun p => (c :: p.1, p.2))

/-- Parser for the tail of a JSON array of strings (the opening bracket
already consumed): returns the decoded strings and the input after the
closing bracket.  One unit of fuel is spent per element. -/
def parseTags : Nat → List Char → Option (List String × List Char)
  | _, ']' :: rest => some ([], rest)
  | fuel + 1, '"' :: rest =>
    match parseJsStr rest.length rest with
    | some (s, ',' :: r2) =>
      (parseTags fuel r2).map (fun p => (String.mk s :: p.1, p.2))
    | some (s, ']' :: r2) => some ([String.mk s], r2)
    | _ => none
  | _, _ => none

/-- Expect a literal character sequence at the head of the input and
return the rest. -/
def expectLit : List Char → List Char → Option (List Char)
  | [], l => some l
  | _ :: _, [] => none
  | c :: cs, x :: xs => if x = c then expectLit cs xs else none

/-- Parser for the optional tail of a serialised log line after the text
field: either the closing brace, or a `stack` field followed by the
closing brace, then the line terminator. -/
def parseStackTail : List Char → Option (Option String)
  | '\x7d' :: r => if r = EOL.data then some none else none
  | ',' :: r => do
    let r1 ← expectLit ("\"stack\":\"").data r
    let (st, r2) ← parseJsStr r1.length r1
    match r2 with
    | '\x7d' :: r3 => if r3 = EOL.data then some (some (String.mk st)) else none
    | _ => none
  | _ => none

/-- Parser for one serialised log line: the fixed field skeleton
`\x7b"isoDate":…,"level":…,"tags":[…],"text":…(,"stack":…)\x7d` followed by
the line terminator, giving back the `Message` record. -/
def parseMessageLine (line : String) : Option Message := do
  let l1 ← expectLit ("\x7b\"isoDate\":\"").data line.data
  let (iso, l2) ← parseJsStr l1.length l1
  let l3 ← expectLit (",\"level\":\"").data l2
  let (lvl, l4) ← parseJsStr l3.length l3
  let l5 ← expectLit (",\"tags\":[").data l4
  let (tags, l6) ← parseTags l5.length l5
  let l7 ← expectLit (",\"text\":\"").data l6
  let (txt, l8) ← parseJsStr l7.length l7
  let stack ← parseStackTail l8
  some ⟨String.mk iso, String.mk lvl, tags, String.mk txt, stack⟩

/-- The log function `allDest0WarnDest1` of `src/src/index.ts`, modelled
by the list of `(sink, text)` writes it performs (in write order).
`none` models a thrown exception (unknown `message.level`, or a write on
an absent stream); `some []` is the immediately resolved promise of a
filtered message. -/
def allDest0WarnDest1 (message : Message) (shouldBeLogged : Bool) (destinations : List Sink) :
    Option (List (Sink × String)) :=
  if !shouldBeLogged then some []
  else
    match isFirstLoglevelGreaterEqualSecond message.level "INFO" with
    | none => none
    | some ge =>
      let d0 := destinations.get? 0
      let d1 := destinations.get? 1
      let writeToDest1 := !ge && d1.isSome && decide (d0 ≠ d1)
      let isBothTty := isTty d0 && isTty d1
      let writeToDest0 := !(writeToDest1 && isBothTty)
      let streamA := if writeToDest1 then d1 else d0
      let streamB := if writeToDest1 && writeToDest0 then d0 else none
      let messageStr := defaultJsonLine message
      match streamA with
      | none => none
      | some a =>
        some ((a, messageStr) :: (match streamB with
          | some b => [(b, messageStr)]
          | none => []))

/-- The `Logger` instance fields of `src/src/index.ts`: current level,
tag prefix, resolved destinations and the registered log function
(represented by `LogFnV` below). -/
inductive LogFnV where
  | allDest0WarnDest1Fn
  | custom (n : Nat)
deriving DecidableEq, Repr

/-- The module-level `logFunctions` registry of `src/src/index.ts`,
pre-populated with `allDest0WarnDest1` under its function name. -/
def logFunctions : List (String × LogFnV) :=
  [("allDest0WarnDest1", .allDest0WarnDest1Fn)]

structure Logger where
  level : String
  tags : List String
  destinations : List Sink
  logFunction : LogFnV
deriving DecidableEq, Repr

/-- `Logger.doLog`: computes `shouldBeLogged` (validating only the
logger's own level through `isFirstLoglevelGreaterEqualSecond`, and
looking for `"always"` in the call's tags only), builds the message with
the merged tags, and hands both to the registered log function.  The
model returns that `(shouldBeLogged, message)` pair; `none` models the
throw for an unknown logger level.  `now` is the ISO rendering of the
call's `new Date()`. -/
def Logger.doLog (lg : Logger) (now : String) (level : String) (tags : TagsArg)
    (format : JsValue) (optionalParams : List JsValue) : Option (Bool × Message) :=
  match isFirstLoglevelGreaterEqualSecond lg.level level with
  | none => none
  | some ge =>
    let shouldBeLogged := ge || tags.toList.contains "always"
    let message : Message :=
      { isoDate := now
        level := level
        tags := lg.tags ++ tags.toList
        text := utilFormat format optionalParams
        stack := match format with
          | .err _ st => some st
          | _ => none }
    some (shouldBeLogged, message)

/-- `Logger.error`. -/
def Logger.error (lg : Logger) (now : String) (format : JsValue)
    (optionalParams : List JsValue) : Option (Bool × Message) :=
  lg.doLog now "ERROR" (.many []) format optionalParams

/-- `Logger.error2`. -/
def Logger.error2 (lg : Logger) (now : String) (tags : TagsArg) (format : JsValue)
    (optionalParams : List JsValue) : Option (Bool × Message) :=
  lg.doLog now "ERROR" tags format optionalParams

/-- `Logger.warn`. -/
def Logger.warn (lg : Logger) (now : String) (format : JsValue)
    (optionalParams : List JsValue) : Option (Bool × Message) :=
  lg.doLog now "WARN" (.many []) format optionalParams

/-- `Logger.warn2`. -/
def Logger.warn2 (lg : Logger) (now : String) (tags : TagsArg) (format : JsValue)
    (optionalParams : List JsValue) : Option (Bool × Message) :=
  lg.doLog now "WARN" tags format optionalParams

/-- `Logger.info`. -/
def Logger.info (lg : Logger) (now : String) (format : JsValue)
    (optionalParams : List JsValue) : Option (Bool × Message) :=
  lg.doLog now "INFO" (.many []) format optionalParams

/-- `Logger.info2`. -/
def Logger.info2 (lg : Logger) (now : String) (tags : TagsArg) (format : JsValue)
    (optionalParams : List JsValue) : Option (Bool × Message) :=
  lg.doLog now "INFO" tags format optionalParams

/-- `Logger.debug`. -/
def Logger.debug (lg : Logger) (now : String) (format : JsValue)
    (optionalParams : List JsValue) : Option (Bool × Message) :=
  lg.doLog now "DEBUG" (.many []) format optionalParams

/-- `Logger.debug2`. -/
def Logger.debug2 (lg : Logger) (now : String) (tags : TagsArg) (format : JsValue)
    (optionalParams : List JsValue) : Option (Bool × Message) :=
  lg.doLog now "DEBUG" tags format optionalParams

/-- The test `typeof arg1 === "string" && logLevelNames.indexOf(arg1) > -1`
guarding the level overload of `log`/`log2`. -/
def levelTokenOf : JsValue → Option String
  | .str s => if jsIndexOf s logLevelNames > -1 then some s else none
  | _ => none

/-- `Logger.log`: with a first argument that is exactly a level token the
remaining arguments are `(format, params)` at that level — even when the
format argument is absent (`undefined`); otherwise the first argument is
the format of an `INFO` message and a present second argument is
prepended to the format arguments. -/
def Logger.log (lg : Logger) (now : String) (arg1 arg2 : JsValue) (arg3 : List JsValue) :
    Option (Bool × Message) :=
  match levelTokenOf arg1 with
  | some lvl => lg.doLog now lvl (.many []) arg2 arg3
  | none =>
    let formatArgs := if arg2 ≠ JsValue.undef then arg2 :: arg3 else arg3
    lg.doLog now "INFO" (.many []) arg1 formatArgs

/-- A `string | string[]` argument in tag position, as the overloads of
`log2` declare it.  Values outside the declared overload types are not
modelled. -/
def toTagsArg : JsValue → Option TagsArg
  | .str s => some (.one s)
  | .strArr l => some (.many l)
  | _ => none

/-- `Logger.log2`: with a leading level token, `(tags, format, params)`
follow; otherwise the first argument is the tags of an `INFO` message
whose format is the second argument, a present third argument being
prepended to the format arguments. -/
def Logger.log2 (lg : Logger) (now : String) (arg1 arg2 arg3 : JsValue)
    (arg4 : List JsValue) : Option (Bool × Message) :=
  match levelTokenOf arg1 with
  | some lvl =>
    match toTagsArg arg2 with
    | some tg => lg.doLog now lvl tg arg3 arg4
    | none => none
  | none =>
    match toTagsArg arg1 with
    | some tg =>
      let formatArgs := if arg3 ≠ JsValue.undef then arg3 :: arg4 else arg4
      lg.doLog now "INFO" tg arg2 formatArgs
    | none => none

/-- `Logger.isErrorOrVerboser`. -/
def Logger.isErrorOrVerboser (lg : Logger) : Option Bool :=
  isFirstLoglevelGreaterEqualSecond lg.level "ERROR"

/-- `Logger.isWarnOrVerboser`. -/
def Logger.isWarnOrVerboser (lg : Logger) : Option Bool :=
  isFirstLoglevelGreaterEqualSecond lg.level "WARN"

/-- `Logger.isInfoOrVerboser`. -/
def Logger.isInfoOrVerboser (lg : Logger) : Option Bool :=
  isFirstLoglevelGreaterEqualSecond lg.level "INFO"

/-- `Logger.isDebugOrVerboser`. -/
def Logger.isDebugOrVerboser (lg : Logger) : Option Bool :=
  isFirstLoglevelGreaterEqualSecond lg.level "DEBUG"

/-- A configured destination: a symbolic name / file path string, or an
already-constructed writable stream. -/
inductive DestSpec where
  | name (s : String)
  | sink (s : Sink)
deriving DecidableEq, Repr

/-- The ambient process resources `setDestinations` draws on:
`process.stdout`, `process.stderr`, and the append-mode stream
`fs.createWriteStream(path, \x7b flags: "a" \x7d)` opens for a path. -/
structure ProcEnv where
  stdoutSink : Sink
  stderrSink : Sink
  fileSink : String → Sink

/-- `setDestinations` on one entry: `"stdout"`/`"stderr"` map to the
process streams, any other string is opened as an append-mode file, a
stream value passes through unchanged. -/
def resolveDest (env : ProcEnv) : DestSpec → Sink
  | .name s =>
    if s = "stdout" then env.stdoutSink
    else if s = "stderr" then env.stderrSink
    else env.fileSink s
  | .sink sk => sk

/-- A `logFunction` option value: a registry name or a function value. -/
inductive LogFnRef where
  | name (s : String)
  | fn (f : LogFnV)
deriving DecidableEq, Repr

/-- `setLogFunction`: a string is looked up in the `logFunctions`
registry (throwing when unknown), a function value is used directly. -/
def setLogFunction : LogFnRef → Option LogFnV
  | .name s => (logFunctions.lookup s)
  | .fn f => some f

/-- The constructor's options argument; absent properties (`none`) take
the module defaults `level = DEBUG`,
`destinations = [process.stdout, process.stderr]`,
`logFunction = "allDest0WarnDest1"`. -/
structure CtorOptions where
  level : Option String := none
  destinations : Option (List DestSpec) := none
  logFunction : Option LogFnRef := none
deriving Repr

/-- The `Logger` constructor: applies the defaults, validates the level
(`none` = throw), resolves destinations and the log function, and stores
the given tags. -/
def loggerCtor (env : ProcEnv) (opts : CtorOptions) (tags : List String) : Option Logger :=
  let level := opts.level.getD "DEBUG"
  if checkLoglevel level then
    match setLogFunction (opts.logFunction.getD (.name "allDest0WarnDest1")) with
    | none => none
    | some f =>
      some { level := level
             tags := tags
             destinations :=
               ((opts.destinations.getD
                   [.sink env.stdoutSink, .sink env.stderrSink]).map (resolveDest env))
             logFunction := f }
  else none

/-- `Logger.getOptions`: the resolved options of an instance (level,
resolved destinations, resolved log function) plus a copy of its tags
(which the constructor ignores when handed this record). -/
def Logger.getOptions (lg : Logger) : CtorOptions × List String :=
  ({ level := some lg.level
     destinations := some (lg.destinations.map .sink)
     logFunction := some (.fn lg.logFunction) },
   lg.tags)

/-- `createFromArguments`: with a previously constructed instance
(`Logger.instance`), its resolved options replace the supplied ones;
otherwise the supplied options are used.  `callerFile` is the caller
filename tag obtained from stack inspection. -/
def createFromArguments (env : ProcEnv) (inst : Option Logger) (options : CtorOptions)
    (callerFile : String) (tags : List String) : Option Logger :=
  let tagsWithCaller := callerFile :: tags
  match inst with
  | some i => loggerCtor env i.getOptions.1 tagsWithCaller
  | none =>
    loggerCtor env
      { level := options.level
        destinations := options.destinations
        logFunction := options.logFunction }
      tagsWithCaller


/-- The message record `doLog` constructs for a call (named here so that
theorems can exhibit it). -/
def Logger.doLogMessage (lg : Logger) (now level : String) (tg : TagsArg)
    (format : JsValue) (params : List JsValue) : Message :=
  { isoDate := now
    level := level
    tags := lg.tags ++ tg.toList
    text := utilFormat format params
    stack := match format with
      | .err _ st => some st
      | _ => none }

/-- A non-interactive sink used in concrete instances. -/
def sinkA : Sink := ⟨0, none⟩

/-- A second, distinct non-interactive sink used in concrete instances. -/
def sinkB : Sink := ⟨1, none⟩

/-- The characters a serialised log line ends with after the text field:
the optional `stack` field and closing brace, then the line terminator
(the final segment of `msgJson · ++ EOL.data`). -/
def stackTailChars : Option String → List Char
  | none => '\x7d' :: EOL.data
  | some st => ',' :: (("\"stack\":\"").data ++ (escStr st ++ '"' :: '\x7d' :: EOL.data))

/-- `createFromConfigFile`: the same clone-or-construct choice, the
no-instance path reading its options from the parsed configuration file
(modelled by `configOptions`). -/
def createFromConfigFile (env : ProcEnv) (inst : Option Logger) (configOptions : CtorOptions)
    (callerFile : String) (tags : List String) : Option Logger :=
  let tagsWithCaller := callerFile :: tags
  match inst with
  | some i => loggerCtor env i.getOptions.1 tagsWithCaller
  | none => loggerCtor env configOptions tagsWithCaller

end NodeLogger

/-! ## The `logFunctions`-list variant of the module

The repository also ships a second, near-duplicate revision of the same
module in which a logger holds a *list* of log functions, the built-ins
are the `LogFunction` object's `defaultText` and `defaultJson`, formatting
is split from the shared fan-out helper `writeToDefaultDestination`, and
`isTty` tests property *presence* (`"isTTY" in stream`).  The parts that
differ are embedded here. -/

namespace NodeLoggerV2

open NodeLogger (Message Sink EOL escStr msgJson defaultJsonLine
  isFirstLoglevelGreaterEqualSecond)

/-- `isTty` of the variant module: `"isTTY" in writableStream` — presence
of the property regardless of its value.  Applied to an absent stream the
`in` operator throws, hence the `Option` result. -/
def isTty : Option Sink → Option Bool
  | none => none
  | some s => some s.isTTYProp.isSome

/-- `isTty(destinations[0]) && isTty(destinations[1])` with JavaScript
short-circuiting: the second operand is only evaluated (and can only
throw) when the first is truthy. -/
def isBothTtyV2 (d0 d1 : Option Sink) : Option Bool :=
  match isTty d0 with
  | none => none
  | some false => some false
  | some true => isTty d1

/-- `writeToDefaultDestination`: the shared fan-out helper of the variant
module, identical to `allDest0WarnDest1` except that the already
formatted `messageText` is passed in and `isTty` is the presence test. -/
def writeToDefaultDestination (messageText : String) (level : String)
    (shouldBeLogged : Bool) (destinations : List Sink) : Option (List (Sink × String)) :=
  if !shouldBeLogged then some []
  else
    match isFirstLoglevelGreaterEqualSecond level "INFO" with
    | none => none
    | some ge =>
      let d0 := destinations.get? 0
      let d1 := destinations.get? 1
      let writeToDest1 := !ge && d1.isSome && decide (d0 ≠ d1)
      match isBothTtyV2 d0 d1 with
      | none => none
      | some bt =>
        let writeToDest0 := !(writeToDest1 && bt)
        let streamA := if writeToDest1 then d1 else d0
        let streamB := if writeToDest1 && writeToDest0 then d0 else none
        match streamA with
        | none => none
        | some a =>
          some ((a, messageText) :: (match streamB with
            | some b => [(b, messageText)]
            | none => []))

/-- The text line rendered by `LogFunction.defaultText`:
`"{isoDate} {level padded/truncated to 5} [{tags joined by ', '}] - {text}"`
with `" STACK: " + stack` appended when a stack is present, plus EOL. -/
def defaultTextLine (m : Message) : String :=
  let level := String.mk ((m.level ++ "     ").data.take 5)
  let tags := String.intercalate ", " m.tags
  let text := match m.stack with
    | some st => m.text ++ " STACK: " ++ st
    | none => m.text
  m.isoDate ++ " " ++ level ++ " [" ++ tags ++ "] - " ++ text ++ EOL

/-- `LogFunction.defaultText`: formats the text line and hands it to the
fan-out helper. -/
def defaultText (m : Message) (shouldBeLogged : Bool) (destinations : List Sink) :
    Option (List (Sink × String)) :=
  writeToDefaultDestination (defaultTextLine m) m.level shouldBeLogged destinations

/-- `LogFunction.defaultJson`: serialises the message record
(`isoDate`, `level`, `tags`, `text`, optional `stack`) as one JSON line
and hands it to the fan-out helper. -/
def defaultJson (m : Message) (shouldBeLogged : Bool) (destinations : List Sink) :
    Option (List (Sink × String)) :=
  writeToDefaultDestination (defaultJsonLine m) m.level shouldBeLogged destinations

/-- Log function values of the variant module: the two built-ins and
externally loaded custom functions. -/
inductive LogFn where
  | defaultTextFn
  | defaultJsonFn
  | custom (n : Nat)
deriving DecidableEq, Repr

/-- The output line a built-in log function writes for a message
(custom functions have no fixed semantics). -/
def LogFn.builtinLine : LogFn → Message → Option String
  | .defaultTextFn, m => some (defaultTextLine m)
  | .defaultJsonFn, m => some (defaultJsonLine m)
  | .custom _, _ => none

/-- The `LogFunction` object: the registry of built-in log functions,
mapping `"defaultText"` to the text formatter and `"defaultJson"` to the
JSON formatter. -/
def LogFunction : List (String × LogFn) :=
  [("defaultText", .defaultTextFn), ("defaultJson", .defaultJsonFn)]

/-- `tryParseCustomLogFnPath`: a reference containing `":"` is resolved by
dynamically loading the named export (modelled by the `load` oracle;
`Except.error` models the throw when the module or export is missing),
any other string yields `undefined` (`Except.ok none`). -/
def tryParseCustomLogFnPath (load : String → Option LogFn) (s : String) :
    Except Unit (Option LogFn) :=
  if s.data.contains ':' then
    match load s with
    | some f => .ok (some f)
    | none => .error ()
  else .ok none

/-- A `logFunctions` option entry: a name/reference string or a function
value. -/
inductive LogFnRef where
  | name (s : String)
  | fn (f : LogFn)
deriving DecidableEq, Repr

/-- `Logger.setLogFunctions` of the variant module: for each entry, the
string `"defaultText"` pushes `LogFunction.defaultText`; the string
`"defaultJson"` also pushes `LogFunction.defaultText` (the source pushes
the text function in the `defaultJson` branch); any other string goes
through `tryParseCustomLogFnPath`, throwing when that yields `undefined`
or throws; a function value is pushed unchanged.  `none` models the
throw. -/
def setLogFunctions (load : String → Option LogFn) : List LogFnRef → Option (List LogFn)
  | [] => some []
  | .name s :: rest =>
    if s = "defaultText" then
      (setLogFunctions load rest).map (fun fs => LogFn.defaultTextFn :: fs)
    else if s = "defaultJson" then
      (setLogFunctions load rest).map (fun fs => LogFn.defaultTextFn :: fs)
    else
      match tryParseCustomLogFnPath load s with
      | .ok (some f) => (setLogFunctions load rest).map (fun fs => f :: fs)
      | .ok none => none
      | .error () => none
  | .fn f :: rest => (setLogFunctions load rest).map (fun fs => f :: fs)

end NodeLoggerV2

/-! ## General lemmas about the embedding -/

namespace NodeLogger

/-- Every level token is its own uppercasing. -/
theorem levelNames_toUpper : ∀ s ∈ logLevelNames, jsToUpperCase s = s := by decide

/-- Every level token passes `checkLoglevel`. -/
theorem checkLoglevel_of_mem : ∀ s ∈ logLevelNames, checkLoglevel s = true := by decide

/-- `indexOf` returns `-1` or a non-negative index. -/
theorem jsIndexOf_cases (s : String) :
    ∀ l : List String, jsIndexOf s l = -1 ∨ 0 ≤ jsIndexOf s l := by
  intro l
  induction l with
  | nil => left; rfl
  | cons x xs ih =>
    by_cases hx : x = s
    · right; simp [jsIndexOf, hx]
    · by_cases hr : jsIndexOf s xs = -1
      · left; simp [jsIndexOf, hx, hr]
      · right
        simp only [jsIndexOf, hx, if_false, if_neg hr]
        rcases ih with h | h
        · exact absurd h hr
        · omega

/-- `indexOf` is `-1` exactly on absent elements. -/
theorem jsIndexOf_eq_neg_one_iff (s : String) :
    ∀ l : List String, jsIndexOf s l = -1 ↔ s ∉ l := by
  intro l
  induction l with
  | nil => simp [jsIndexOf]
  | cons x xs ih =>
    by_cases hx : x = s
    · subst hx
      simp [jsIndexOf]
    · by_cases hr : jsIndexOf s xs = -1
      · simp only [jsIndexOf, hx, if_false, hr, if_true, List.mem_cons, true_iff]
        push_neg
        exact ⟨fun h => absurd h.symm hx, ih.mp hr⟩
      · have hnn : 0 ≤ jsIndexOf s xs := (jsIndexOf_cases s xs).resolve_left hr
        have hmem : s ∈ xs := by
          by_contra hn
          exact hr (ih.mpr hn)
        simp only [jsIndexOf, hx, if_false, if_neg hr, List.mem_cons]
        constructor
        · intro h; omega
        · intro h
          exact absurd (Or.inr hmem) h

/-- `indexOf` of a present element is non-negative. -/
theorem jsIndexOf_nonneg_of_mem {s : String} {l : List String} (h : s ∈ l) :
    0 ≤ jsIndexOf s l := by
  rcases jsIndexOf_cases s l with h' | h'
  · exact absurd ((jsIndexOf_eq_neg_one_iff s l).mp h') (by simp [h])
  · exact h'

/-- On a valid first token the level comparison returns the boolean
`indexOf` comparison (only the first token is validated). -/
theorem isFirst_of_mem {l1 : String} (l2 : String) (h : l1 ∈ logLevelNames) :
    isFirstLoglevelGreaterEqualSecond l1 l2 =
      some (decide (jsIndexOf l1 logLevelNames ≥ jsIndexOf l2 logLevelNames)) := by
  unfold isFirstLoglevelGreaterEqualSecond
  rw [levelNames_toUpper l1 h]
  simp [checkLoglevel_of_mem l1 h]

/-- With `shouldBeLogged = true`, a valid message level and a present
first destination, `allDest0WarnDest1` performs at least one write. -/
theorem allDest_writes_nonempty {m : Message} {dests : List Sink} {d0 : Sink}
    (h : m.level ∈ logLevelNames) (h0 : dests.get? 0 = some d0) :
    ∃ w, allDest0WarnDest1 m true dests = some w ∧ w ≠ [] := by
  rcases dests with _ | ⟨e0, tail⟩
  · simp [List.get?] at h0
  · have he : e0 = d0 := by simpa [List.get?] using h0
    subst he
    unfold allDest0WarnDest1
    rw [isFirst_of_mem "INFO" h]
    rcases tail with _ | ⟨e1, tail2⟩
    · refine ⟨[(e0, defaultJsonLine m)], ?_, by simp⟩
      simp [List.get?]
    · by_cases hge : decide (jsIndexOf m.level logLevelNames ≥ jsIndexOf "INFO" logLevelNames) = true
      · refine ⟨[(e0, defaultJsonLine m)], ?_, by simp⟩
        simp [List.get?, hge]
      · by_cases heq : e0 = e1
        · refine ⟨[(e0, defaultJsonLine m)], ?_, by simp⟩
          simp [List.get?, hge, heq]
        · by_cases htty : (isTty (some e0) && isTty (some e1)) = true
          · refine ⟨[(e1, defaultJsonLine m)], ?_, by simp⟩
            simp [List.get?, hge, heq, htty]
          · refine ⟨[(e1, defaultJsonLine m), (e0, defaultJsonLine m)], ?_, by simp⟩
            simp [List.get?, hge, heq, htty]

end NodeLogger

/-! ## C1: the level comparison operation -/

namespace NodeLogger

/-- **C1 counterexample.**  The claim asserts the comparison fails with a
`ConfigError` whenever the second token is not a member of the
enumeration, never returning a boolean.  But `checkLoglevel` is applied
to the first token only: with a valid first token and the unknown second
token `"BOGUS"` (index `-1`) the function returns `some true` instead of
failing. -/
theorem C1_counterexample :
    isFirstLoglevelGreaterEqualSecond "DEBUG" "BOGUS" = some true := by decide

/-- **C1 (amended).**  For tokens inside the enumeration the comparison
is position-of-first `≥` position-of-second; the operation fails with a
`ConfigError` iff the *first* token after uppercasing is not a member of
the enumeration; a valid first token with a second token outside the
enumeration yields `some true` (the second token's `indexOf` is `-1`),
not a failure. -/
theorem C1_amended (L1 L2 : String) :
    (L1 ∈ logLevelNames → L2 ∈ logLevelNames →
      isFirstLoglevelGreaterEqualSecond L1 L2 =
        some (decide (jsIndexOf L1 logLevelNames ≥ jsIndexOf L2 logLevelNames)))
    ∧ (checkLoglevel (jsToUpperCase L1) = false →
        isFirstLoglevelGreaterEqualSecond L1 L2 = none)
    ∧ (checkLoglevel (jsToUpperCase L1) = true → L2 ∉ logLevelNames →
        isFirstLoglevelGreaterEqualSecond L1 L2 = some true) := by
  refine ⟨fun h1 _ => isFirst_of_mem L2 h1, fun hbad => ?_, fun hok h2 => ?_⟩
  · simp [isFirstLoglevelGreaterEqualSecond, hbad]
  · have h2' : jsIndexOf L2 logLevelNames = -1 := by
      rw [jsIndexOf_eq_neg_one_iff]; exact h2
    have hmem : jsToUpperCase L1 ∈ logLevelNames := by
      by_contra hn
      rw [← jsIndexOf_eq_neg_one_iff] at hn
      simp [checkLoglevel, hn] at hok
    have hpos : 0 ≤ jsIndexOf (jsToUpperCase L1) logLevelNames := jsIndexOf_nonneg_of_mem hmem
    simp only [isFirstLoglevelGreaterEqualSecond, hok, if_true, h2']
    simp only [Option.some.injEq, decide_eq_true_eq]
    omega

/-- Witness for C1: instantiating the amended statement at the pair
`("WARN", "ERROR")`, both inside the enumeration. -/
theorem C1_amended_witness :
    isFirstLoglevelGreaterEqualSecond "WARN" "ERROR" = some true := by
  have h := (C1_amended "WARN" "ERROR").1 (by decide) (by decide)
  simpa using h

/-- On a validly configured logger, `doLog` returns the filtering
decision together with the constructed message. -/
theorem doLog_eq {lg : Logger} (now level : String) (tg : TagsArg)
    (format : JsValue) (params : List JsValue) (hlg : lg.level ∈ logLevelNames) :
    lg.doLog now level tg format params =
      some (decide (jsIndexOf lg.level logLevelNames ≥ jsIndexOf level logLevelNames)
              || tg.toList.contains "always",
            lg.doLogMessage now level tg format params) := by
  simp [Logger.doLog, Logger.doLogMessage, isFirst_of_mem level hlg]

end NodeLogger

/-! ## C2: messages filtered by level cost no writes -/

namespace NodeLogger

/-- **C2 counterexample.**  The claim asserts zero writes for a call
whose level is *strictly less verbose* than the logger's configured
level.  `ERROR` is strictly less verbose than `INFO` in the enumeration
ordering, yet a logger configured at `INFO` logs an `ERROR` call with
`shouldBeLogged = true` and `allDest0WarnDest1` then writes to both
destinations — the destinations do not stay unchanged. -/
theorem C2_counterexample :
    jsIndexOf "ERROR" logLevelNames < jsIndexOf "INFO" logLevelNames
    ∧ (Logger.mk "INFO" [] [sinkA, sinkB] .allDest0WarnDest1Fn).doLog
        "2016-01-01T00:00:00.000Z" "ERROR" (.many []) (.str "boom") [] =
      some (true, ⟨"2016-01-01T00:00:00.000Z", "ERROR", [], "boom", none⟩)
    ∧ allDest0WarnDest1 ⟨"2016-01-01T00:00:00.000Z", "ERROR", [], "boom", none⟩
        true [sinkA, sinkB] ≠ some [] :=
  ⟨by decide, by decide, by decide⟩

/-- **C2 (amended).**  A log call whose level is strictly *more* verbose
than the logger's configured level (its enumeration position is strictly
greater) and whose tags do not contain `"always"` is dispatched with
`shouldBeLogged = false`, and with `shouldBeLogged = false` every
built-in log function returns an already-resolved completion with zero
writes to any destination. -/
theorem C2_amended (lg : Logger) (now level : String) (tg : TagsArg)
    (format : JsValue) (params : List JsValue)
    (hmem : lg.level ∈ logLevelNames)
    (hlt : jsIndexOf lg.level logLevelNames < jsIndexOf level logLevelNames)
    (htag : tg.toList.contains "always" = false) :
    ∃ m, lg.doLog now level tg format params = some (false, m)
      ∧ (∀ dests, allDest0WarnDest1 m false dests = some [])
      ∧ (∀ txt lvl dests,
          NodeLoggerV2.writeToDefaultDestination txt lvl false dests = some []) := by
  have hdec : decide (jsIndexOf lg.level logLevelNames ≥ jsIndexOf level logLevelNames)
      = false := by
    simp only [decide_eq_false_iff_not, ge_iff_le, not_le]
    exact hlt
  refine ⟨lg.doLogMessage now level tg format params, ?_, fun _ => rfl, fun _ _ _ => rfl⟩
  rw [doLog_eq now level tg format params hmem, hdec, htag]
  rfl

/-- Witness for C2 (amended): a `DEBUG` call against an `INFO` logger is
dispatched with `shouldBeLogged = false` and nothing is written. -/
theorem C2_amended_witness :
    ∃ m, (Logger.mk "INFO" [] [sinkA, sinkB] .allDest0WarnDest1Fn).doLog
        "t" "DEBUG" (.many []) (.str "x") [] = some (false, m)
      ∧ (∀ dests, allDest0WarnDest1 m false dests = some [])
      ∧ (∀ txt lvl dests,
          NodeLoggerV2.writeToDefaultDestination txt lvl false dests = some []) :=
  C2_amended _ "t" "DEBUG" (.many []) (.str "x") [] (by decide) (by decide) (by decide)

end NodeLogger

/-! ## C3: the "always" sentinel -/

namespace NodeLogger

/-- **C3 counterexample.**  The claim asserts the `"always"` sentinel is
honoured anywhere in the *merged* tag set, including the logger's own tag
prefix.  But `doLog` searches the call's tags only: a logger created with
tags `["always"]` and level `OFF` dispatches an `ERROR` call (no call
tags) with `shouldBeLogged = false` — although the merged tag set of the
message contains `"always"` — and zero writes are performed. -/
theorem C3_counterexample :
    (Logger.mk "OFF" ["always"] [sinkA, sinkB] .allDest0WarnDest1Fn).doLog
        "t" "ERROR" (.many []) (.str "x") [] =
      some (false, ⟨"t", "ERROR", ["always"], "x", none⟩)
    ∧ (Message.tags ⟨"t", "ERROR", ["always"], "x", none⟩).contains "always" = true
    ∧ allDest0WarnDest1 ⟨"t", "ERROR", ["always"], "x", none⟩ false [sinkA, sinkB]
        = some [] :=
  ⟨by decide, by decide, by decide⟩

/-- **C3 (amended).**  `shouldBeLogged` is
`isAtLeastAsVerbose(loggerLevel, level) OR "always" ∈ callTags` — the
sentinel is looked for in the *call's* tags only, not in the logger's tag
prefix; the message still carries the merged tag set.  Whenever the
call's tags contain `"always"`, the message is written (at least one
write) regardless of the logger's level, including level `OFF`. -/
theorem C3_amended (lg : Logger) (now level : String) (tg : TagsArg)
    (format : JsValue) (params : List JsValue) (d0 : Sink) (ds : List Sink)
    (hlg : lg.level ∈ logLevelNames) (hlvl : level ∈ logLevelNames) :
    ∃ m, lg.doLog now level tg format params =
        some (decide (jsIndexOf lg.level logLevelNames ≥ jsIndexOf level logLevelNames)
                || tg.toList.contains "always", m)
      ∧ m.tags = lg.tags ++ tg.toList
      ∧ (tg.toList.contains "always" = true →
          ∃ w, allDest0WarnDest1 m true (d0 :: ds) = some w ∧ w ≠ []) := by
  refine ⟨lg.doLogMessage now level tg format params, ?_, rfl, ?_⟩
  · exact doLog_eq now level tg format params hlg
  · intro _
    exact allDest_writes_nonempty hlvl
      (show (d0 :: ds).get? 0 = some d0 from rfl)

/-- Witness for C3 (amended): an `ERROR` call carrying the `"always"`
tag against an `OFF` logger is dispatched with `shouldBeLogged = true`
and written. -/
theorem C3_amended_witness :
    ∃ m, (Logger.mk "OFF" [] [sinkA, sinkB] .allDest0WarnDest1Fn).doLog
        "t" "ERROR" (.many ["always"]) (.str "x") [] =
        some (decide (jsIndexOf "OFF" logLevelNames ≥ jsIndexOf "ERROR" logLevelNames)
                || (TagsArg.many ["always"]).toList.contains "always", m)
      ∧ m.tags = ([] : List String) ++ (TagsArg.many ["always"]).toList
      ∧ ((TagsArg.many ["always"]).toList.contains "always" = true →
          ∃ w, allDest0WarnDest1 m true (sinkA :: [sinkB]) = some w ∧ w ≠ []) :=
  C3_amended _ "t" "ERROR" (.many ["always"]) (.str "x") [] sinkA [sinkB]
    (by decide) (by decide)

end NodeLogger

/-! ## C4: the OFF level -/

namespace NodeLogger

/-- **C4 counterexample.**  The claim asserts a dispatch with explicit
level `OFF` has `shouldBeLogged = false` unless the `"always"` tag is
present.  But `position(OFF) = 0` is `≤` every valid position, so an
`OFF`-level dispatch always passes the filter — both against a logger
configured `OFF` and against one configured `ERROR` — with no `"always"`
tag anywhere. -/
theorem C4_counterexample :
    (Logger.mk "OFF" [] [sinkA, sinkB] .allDest0WarnDest1Fn).doLog
        "t" "OFF" (.many []) (.str "x") [] =
      some (true, ⟨"t", "OFF", [], "x", none⟩)
    ∧ (Logger.mk "ERROR" [] [sinkA, sinkB] .allDest0WarnDest1Fn).doLog
        "t" "OFF" (.many []) (.str "x") [] =
      some (true, ⟨"t", "OFF", [], "x", none⟩) :=
  ⟨by decide, by decide⟩

/-- **C4 (amended).**  A logger configured at level `OFF` dispatches
every call whose level is one of `ERROR`, `WARN`, `INFO`, `DEBUG` and
whose tags do not contain `"always"` with `shouldBeLogged = false` (and a
log function then performs zero writes); but a dispatch with explicit
level `OFF` has `shouldBeLogged = true` against *every* validly
configured logger level, because `position(OFF) = 0` is the least
position. -/
theorem C4_amended :
    (∀ (tags : List String) (dests : List Sink) (fn : LogFnV) (now level : String)
       (tg : TagsArg) (format : JsValue) (params : List JsValue),
       level ∈ ["ERROR", "WARN", "INFO", "DEBUG"] →
       tg.toList.contains "always" = false →
       ∃ m, (Logger.mk "OFF" tags dests fn).doLog now level tg format params
            = some (false, m)
         ∧ ∀ dests', allDest0WarnDest1 m false dests' = some [])
    ∧ (∀ (lg : Logger) (now : String) (tg : TagsArg) (format : JsValue)
         (params : List JsValue),
       lg.level ∈ logLevelNames →
       ∃ m, lg.doLog now "OFF" tg format params = some (true, m)) := by
  constructor
  · intro tags dests fn now level tg format params hlvl htag
    have hdec : decide (jsIndexOf "OFF" logLevelNames ≥ jsIndexOf level logLevelNames)
        = false := by
      fin_cases hlvl <;> decide
    refine ⟨(Logger.mk "OFF" tags dests fn).doLogMessage now level tg format params,
      ?_, fun _ => rfl⟩
    rw [doLog_eq now level tg format params
        (show ("OFF" : String) ∈ logLevelNames by decide), hdec, htag]
    rfl
  · intro lg now tg format params hlg
    have hdec : decide (jsIndexOf lg.level logLevelNames ≥ jsIndexOf "OFF" logLevelNames)
        = true := by
      have h0 : jsIndexOf "OFF" logLevelNames = 0 := by decide
      have := jsIndexOf_nonneg_of_mem hlg
      simp only [decide_eq_true_eq, ge_iff_le, h0]
      exact this
    refine ⟨lg.doLogMessage now "OFF" tg format params, ?_⟩
    rw [doLog_eq now "OFF" tg format params hlg, hdec]
    simp

/-- Witness for C4 (amended): an `ERROR` call against an `OFF` logger is
suppressed; an `OFF`-level call against an `ERROR` logger passes. -/
theorem C4_amended_witness :
    (∃ m, (Logger.mk "OFF" [] [sinkA, sinkB] .allDest0WarnDest1Fn).doLog
        "t" "ERROR" (.many []) (.str "x") [] = some (false, m)
      ∧ ∀ dests', allDest0WarnDest1 m false dests' = some [])
    ∧ (∃ m, (Logger.mk "ERROR" [] [sinkA, sinkB] .allDest0WarnDest1Fn).doLog
        "t" "OFF" (.many []) (.str "x") [] = some (true, m)) :=
  ⟨C4_amended.1 [] [sinkA, sinkB] .allDest0WarnDest1Fn "t" "ERROR"
      (.many []) (.str "x") [] (by decide) (by decide),
   C4_amended.2 _ "t" (.many []) (.str "x") [] (by decide)⟩

end NodeLogger

/-! ## C5: dual-destination fan-out to non-interactive sinks -/

namespace NodeLogger

/-- **C5.**  With `shouldBeLogged = true` and two distinct non-interactive
destinations (no `isTTY` property, as for files and pipes): an `ERROR` or
`WARN` message is written to both destinations, each exactly once, by
both built-in write paths; an `INFO` or `DEBUG` message is written to
`destinations[0]` only. -/
theorem C5_fanout (m : Message) (txt : String) (d0 d1 : Sink) (rest : List Sink)
    (hne : d0 ≠ d1) (h0 : d0.isTTYProp = none) (h1 : d1.isTTYProp = none) :
    ((m.level = "ERROR" ∨ m.level = "WARN") →
      allDest0WarnDest1 m true (d0 :: d1 :: rest) =
        some [(d1, defaultJsonLine m), (d0, defaultJsonLine m)]
      ∧ NodeLoggerV2.writeToDefaultDestination txt m.level true (d0 :: d1 :: rest) =
        some [(d1, txt), (d0, txt)]
      ∧ [(d1, defaultJsonLine m), (d0, defaultJsonLine m)].countP
          (fun w => decide (w.1 = d0)) = 1
      ∧ [(d1, defaultJsonLine m), (d0, defaultJsonLine m)].countP
          (fun w => decide (w.1 = d1)) = 1)
    ∧ ((m.level = "INFO" ∨ m.level = "DEBUG") →
      allDest0WarnDest1 m true (d0 :: d1 :: rest) = some [(d0, defaultJsonLine m)]
      ∧ NodeLoggerV2.writeToDefaultDestination txt m.level true (d0 :: d1 :: rest) =
        some [(d0, txt)]) := by
  have hne' : d1 ≠ d0 := Ne.symm hne
  constructor
  · intro hlvl
    have hfi : isFirstLoglevelGreaterEqualSecond m.level "INFO" = some false := by
      rcases hlvl with h | h <;> rw [h] <;> decide
    refine ⟨?_, ?_, ?_, ?_⟩
    · simp [allDest0WarnDest1, hfi, List.get?, isTty, h0, h1, hne]
    · simp [NodeLoggerV2.writeToDefaultDestination, hfi, List.get?,
        NodeLoggerV2.isBothTtyV2, NodeLoggerV2.isTty, h0, h1, hne]
    · simp [List.countP_cons, hne, hne']
    · simp [List.countP_cons, hne, hne']
  · intro hlvl
    have hfi : isFirstLoglevelGreaterEqualSecond m.level "INFO" = some true := by
      rcases hlvl with h | h <;> rw [h] <;> decide
    constructor
    · simp [allDest0WarnDest1, hfi, List.get?]
    · simp [NodeLoggerV2.writeToDefaultDestination, hfi, List.get?,
        NodeLoggerV2.isBothTtyV2, NodeLoggerV2.isTty, h0, h1]

/-- Witness for C5: a `WARN` message to the two concrete non-interactive
sinks goes to both; an `INFO` message goes to the first only. -/
theorem C5_fanout_witness :
    (allDest0WarnDest1 ⟨"t", "WARN", [], "x", none⟩ true [sinkA, sinkB] =
      some [(sinkB, defaultJsonLine ⟨"t", "WARN", [], "x", none⟩),
            (sinkA, defaultJsonLine ⟨"t", "WARN", [], "x", none⟩)])
    ∧ (allDest0WarnDest1 ⟨"t", "INFO", [], "x", none⟩ true [sinkA, sinkB] =
      some [(sinkA, defaultJsonLine ⟨"t", "INFO", [], "x", none⟩)]) :=
  ⟨((C5_fanout ⟨"t", "WARN", [], "x", none⟩ "L" sinkA sinkB []
      (by decide) rfl rfl).1 (Or.inr rfl)).1,
   ((C5_fanout ⟨"t", "INFO", [], "x", none⟩ "L" sinkA sinkB []
      (by decide) rfl rfl).2 (Or.inl rfl)).1⟩

end NodeLogger

/-! ## C6: console de-duplication for interactive sinks -/

namespace NodeLogger

/-- **C6.**  With two distinct destinations and an `ERROR`- or
`WARN`-level message: when both destinations are interactive terminals
(`isTTY` truthy) the line goes to `destinations[1]` only — it is not
duplicated to `destinations[0]`; and whenever either destination is not
interactive, `destinations[0]` is written as well, so the skip happens
only in the both-interactive case. -/
theorem C6_tty_dedup (m : Message) (d0 d1 : Sink) (rest : List Sink)
    (hlvl : m.level = "ERROR" ∨ m.level = "WARN") (hne : d0 ≠ d1) :
    (d0.isTTYProp = some true → d1.isTTYProp = some true →
      allDest0WarnDest1 m true (d0 :: d1 :: rest) = some [(d1, defaultJsonLine m)]
      ∧ ∀ txt, NodeLoggerV2.writeToDefaultDestination txt m.level true (d0 :: d1 :: rest) =
          some [(d1, txt)])
    ∧ ((isTty (some d0) = false ∨ isTty (some d1) = false) →
      allDest0WarnDest1 m true (d0 :: d1 :: rest) =
        some [(d1, defaultJsonLine m), (d0, defaultJsonLine m)]) := by
  have hfi : isFirstLoglevelGreaterEqualSecond m.level "INFO" = some false := by
    rcases hlvl with h | h <;> rw [h] <;> decide
  refine ⟨fun h0 h1 => ⟨?_, fun txt => ?_⟩, ?_⟩
  · simp [allDest0WarnDest1, hfi, List.get?, isTty, h0, h1, hne]
  · simp [NodeLoggerV2.writeToDefaultDestination, hfi, List.get?,
      NodeLoggerV2.isBothTtyV2, NodeLoggerV2.isTty, h0, h1, hne]
  · intro htty
    rcases htty with h | h <;>
      simp [allDest0WarnDest1, hfi, List.get?, hne, h]

/-- Witness for C6: an `ERROR` message to two distinct interactive
terminals is shown once, on the secondary sink; with non-interactive
sinks it goes to both. -/
theorem C6_tty_dedup_witness :
    (allDest0WarnDest1 ⟨"t", "ERROR", [], "x", none⟩ true
        [⟨2, some true⟩, ⟨3, some true⟩] =
      some [(⟨3, some true⟩, defaultJsonLine ⟨"t", "ERROR", [], "x", none⟩)])
    ∧ (allDest0WarnDest1 ⟨"t", "ERROR", [], "x", none⟩ true [sinkA, sinkB] =
      some [(sinkB, defaultJsonLine ⟨"t", "ERROR", [], "x", none⟩),
            (sinkA, defaultJsonLine ⟨"t", "ERROR", [], "x", none⟩)]) :=
  ⟨((C6_tty_dedup ⟨"t", "ERROR", [], "x", none⟩ ⟨2, some true⟩ ⟨3, some true⟩ []
      (Or.inl rfl) (by decide)).1 rfl rfl).1,
   (C6_tty_dedup ⟨"t", "ERROR", [], "x", none⟩ sinkA sinkB []
      (Or.inl rfl) (by decide)).2 (Or.inl rfl)⟩

end NodeLogger

/-! ## C7: the log function registry and the `defaultJson` name -/

namespace NodeLoggerV2

/-- **C7 evaluation at the failing input.**  The registry does hold the
two built-ins under their names, and an unknown plain name is rejected;
but constructing a logger with the symbolic name `"defaultJson"`
registers the *text* formatter, not the JSON formatter — the
`defaultJson` branch of `setLogFunctions` pushes
`LogFunction.defaultText`, whose output line differs from the JSON
line. -/
theorem C7_defaultJson_registers_text :
    setLogFunctions (fun _ => none) [.name "defaultJson"] = some [LogFn.defaultTextFn]
    ∧ LogFunction.lookup "defaultJson" = some LogFn.defaultJsonFn
    ∧ LogFunction.lookup "defaultText" = some LogFn.defaultTextFn
    ∧ setLogFunctions (fun _ => none) [.name "defaultText"] = some [LogFn.defaultTextFn]
    ∧ setLogFunctions (fun _ => none) [.name "bogus"] = none
    ∧ LogFn.builtinLine LogFn.defaultTextFn ⟨"t", "INFO", ["a"], "x", none⟩ ≠
      LogFn.builtinLine LogFn.defaultJsonFn ⟨"t", "INFO", ["a"], "x", none⟩ :=
  ⟨by decide, by decide, by decide, by decide, by decide, by decide⟩

end NodeLoggerV2

/-! ## C8: the JSON round-trip

The built-in JSON output line is `JSON.stringify(message) + EOL`.  The
lemmas below prove that `parseMessageLine` inverts the printer exactly:
escaping, the tags array and the optional stack field all round-trip. -/

namespace NodeLogger

/-- Reading back a hex digit recovers the value it encodes. -/
theorem hexVal_hexDigitChar : ∀ n < 16, hexVal (hexDigitChar n) = some n := by decide

/-- Matching a literal prefix succeeds on that prefix and returns the
rest. -/
theorem expectLit_append : ∀ (lit l : List Char), expectLit lit (lit ++ l) = some l := by
  intro lit
  induction lit with
  | nil => intro l; rfl
  | cons c cs ih => intro l; simp [expectLit, ih]

/-- Escaping a character yields at least one character. -/
theorem escChar_length_pos (c : Char) : 1 ≤ (escChar c).length := by
  unfold escChar
  split_ifs <;> simp

/-- Escaping does not shrink a character list. -/
theorem length_le_escList : ∀ s : List Char, s.length ≤ ((s.map escChar).flatten).length := by
  intro s
  induction s with
  | nil => simp
  | cons c s ih =>
    simp only [List.map_cons, List.flatten_cons, List.length_append, List.length_cons]
    have := escChar_length_pos c
    omega

/-- The string-body parser undoes `JSON.stringify` escaping: parsing the
escaped characters of `s` followed by a closing quote yields `s` and the
unconsumed input, for any sufficient fuel. -/
theorem parseJsStr_esc_round : ∀ (s rest : List Char) (fuel : Nat), s.length ≤ fuel →
    parseJsStr fuel ((s.map escChar).flatten ++ '"' :: rest) = some (s, rest) := by
  intro s
  induction s with
  | nil =>
    intro rest fuel _
    rw [parseJsStr.eq_def]
    simp
  | cons c s ih =>
    intro rest fuel h
    cases fuel with
    | zero => simp at h
    | succ f =>
      have hf : s.length ≤ f := by simpa using h
      simp only [List.map_cons, List.flatten_cons, List.append_assoc]
      by_cases h1 : c = '"'
      · subst h1
        rw [show escChar '"' = ['\\', '"'] by decide]
        rw [parseJsStr.eq_def]
        simp [escDecode, ih rest f hf]
      · by_cases h2 : c = '\\'
        · subst h2
          rw [show escChar '\\' = ['\\', '\\'] by decide]
          rw [parseJsStr.eq_def]
          simp [escDecode, ih rest f hf]
        · by_cases h3 : c = Char.ofNat 8
          · subst h3
            rw [show escChar (Char.ofNat 8) = ['\\', 'b'] by decide]
            rw [parseJsStr.eq_def]
            simp [escDecode, ih rest f hf]
          · by_cases h4 : c = Char.ofNat 9
            · subst h4
              rw [show escChar (Char.ofNat 9) = ['\\', 't'] by decide]
              rw [parseJsStr.eq_def]
              simp [escDecode, ih rest f hf]
            · by_cases h5 : c = Char.ofNat 10
              · subst h5
                rw [show escChar (Char.ofNat 10) = ['\\', 'n'] by decide]
                rw [parseJsStr.eq_def]
                simp [escDecode, ih rest f hf]
              · by_cases h6 : c = Char.ofNat 12
                · subst h6
                  rw [show escChar (Char.ofNat 12) = ['\\', 'f'] by decide]
                  rw [parseJsStr.eq_def]
                  simp [escDecode, ih rest f hf]
                · by_cases h7 : c = Char.ofNat 13
                  · subst h7
                    rw [show escChar (Char.ofNat 13) = ['\\', 'r'] by decide]
                    rw [parseJsStr.eq_def]
                    simp [escDecode, ih rest f hf]
                  · by_cases h8 : c.toNat < 32
                    · have hesc : escChar c =
                          ['\\', 'u', '0', '0', hexDigitChar (c.toNat / 16),
                           hexDigitChar (c.toNat % 16)] := by
                        simp [escChar, h1, h2, h3, h4, h5, h6, h7, h8]
                      rw [hesc, parseJsStr.eq_def]
                      have e1 : hexVal (hexDigitChar (c.toNat / 16)) = some (c.toNat / 16) :=
                        hexVal_hexDigitChar _ (by omega)
                      have e2 : hexVal (hexDigitChar (c.toNat % 16)) = some (c.toNat % 16) :=
                        hexVal_hexDigitChar _ (by omega)
                      have hv : Char.ofNat (c.toNat / 16 * 16 + c.toNat % 16) = c := by
                        rw [show c.toNat / 16 * 16 + c.toNat % 16 = c.toNat by omega]
                        exact Char.ofNat_toNat c
                      simp [show hexVal '0' = some 0 by decide, e1, e2, hv, ih rest f hf]
                    · have hesc : escChar c = [c] := by
                        simp [escChar, h1, h2, h3, h4, h5, h6, h7, h8]
                      rw [hesc, parseJsStr.eq_def]
                      simp [h1, h2, ih rest f hf]

/-- Escaping does not shrink a string. -/
theorem length_le_escStr (s : String) : s.data.length ≤ (escStr s).length :=
  length_le_escList s.data

/-- The string-body parser at its call-site fuel (the length of its own
input) round-trips an escaped string. -/
theorem parseJsStr_round_self (s : String) (rest : List Char) :
    parseJsStr (escStr s ++ '"' :: rest).length (escStr s ++ '"' :: rest) =
      some (s.data, rest) :=
  parseJsStr_esc_round s.data rest _
    (by simp only [escStr, List.length_append, List.length_cons]
        have := length_le_escList s.data
        omega)

/-- The serialised tags body is at least as long as the tag list. -/
theorem length_le_tagsBody : ∀ ts : List String, ts.length ≤ (tagsBody ts).length := by
  intro ts
  induction ts with
  | nil => simp [tagsBody]
  | cons t ts ih =>
    cases ts with
    | nil => simp [tagsBody]
    | cons t' ts' =>
      simp only [tagsBody, List.length_cons, List.length_append] at ih ⊢
      omega

/-- The tags parser undoes the array serialisation: parsing the
serialised body of `ts` followed by the closing bracket yields `ts`, for
any fuel of at least one unit per tag. -/
theorem parseTags_body_round : ∀ (ts : List String) (rest : List Char) (fuel : Nat),
    ts.length ≤ fuel →
    parseTags fuel (tagsBody ts ++ ']' :: rest) = some (ts, rest) := by
  intro ts
  induction ts with
  | nil =>
    intro rest fuel _
    rw [parseTags.eq_def]
    simp [tagsBody]
  | cons t ts ih =>
    intro rest fuel h
    cases fuel with
    | zero => simp at h
    | succ f =>
      have hf : ts.length ≤ f := by simpa using h
      cases ts with
      | nil =>
        simp only [tagsBody, List.cons_append, List.append_assoc, List.singleton_append]
        rw [parseTags.eq_def]
        have hstep := parseJsStr_round_self t (']' :: rest)
        simp only [List.length_append, List.length_cons] at hstep
        simp [hstep]
      | cons t' ts' =>
        simp only [tagsBody, List.cons_append, List.append_assoc, List.singleton_append]
        rw [parseTags.eq_def]
        have hstep := parseJsStr_round_self t (',' :: (tagsBody (t' :: ts') ++ ']' :: rest))
        simp only [List.length_append, List.length_cons] at hstep
        simp [hstep, ih rest f hf]

/-- The tags parser at its call-site fuel round-trips a serialised tag
list. -/
theorem parseTags_round_self (ts : List String) (rest : List Char) :
    parseTags (tagsBody ts ++ ']' :: rest).length (tagsBody ts ++ ']' :: rest) =
      some (ts, rest) :=
  parseTags_body_round ts rest _
    (by simp only [List.length_append, List.length_cons]
        have := length_le_tagsBody ts
        omega)

/-- The tail parser recovers the optional stack field. -/
theorem parseStackTail_round (st : Option String) :
    parseStackTail (stackTailChars st) = some st := by
  cases st with
  | none => simp [stackTailChars, parseStackTail]
  | some st =>
    simp only [stackTailChars]
    rw [parseStackTail.eq_def]
    simp only [expectLit_append]
    have hstep := parseJsStr_round_self st ('\x7d' :: EOL.data)
    simp at hstep
    simp [hstep]

/-- The serialised message followed by the line terminator, regrouped
into the shape the parser consumes (literal prefixes, escaped fields,
closing delimiters). -/
theorem msgJson_append_EOL (m : Message) :
    msgJson m ++ EOL.data =
      ("\x7b\"isoDate\":\"").data ++
        (escStr m.isoDate ++ '"' :: ((",\"level\":\"").data ++
          (escStr m.level ++ '"' :: ((",\"tags\":[").data ++
            (tagsBody m.tags ++ ']' :: ((",\"text\":\"").data ++
              (escStr m.text ++ '"' :: stackTailChars m.stack))))))) := by
  rcases m with ⟨iso, lvl, tags, text, stack⟩
  cases stack with
  | none => simp [msgJson, stackTailChars, List.append_assoc]
  | some st => simp [msgJson, stackTailChars, List.append_assoc]

/-- **Round-trip**: parsing the JSON output line of any message recovers
the message record exactly. -/
theorem parseMessageLine_defaultJsonLine (m : Message) :
    parseMessageLine (defaultJsonLine m) = some m := by
  have hdata : (defaultJsonLine m).data = msgJson m ++ EOL.data := rfl
  unfold parseMessageLine
  rw [hdata, msgJson_append_EOL]
  simp only [expectLit_append, parseJsStr_round_self, parseTags_round_self,
    parseStackTail_round, Option.bind_eq_bind', Option.some_bind']

/-- **C8.**  For every dispatched message, parsing the JSON-formatted
output line back yields the message record itself — in particular a
record whose `level` equals the dispatched level and whose `tags` equal
the merged sequence: logger-creation tags followed by call tags, order
and duplicates preserved. -/
theorem C8_json_roundtrip (lg : Logger) (now level : String) (tg : TagsArg)
    (format : JsValue) (params : List JsValue) (hlg : lg.level ∈ logLevelNames) :
    ∃ b m, lg.doLog now level tg format params = some (b, m)
      ∧ parseMessageLine (defaultJsonLine m) = some m
      ∧ m.level = level
      ∧ m.tags = lg.tags ++ tg.toList :=
  ⟨_, _, doLog_eq now level tg format params hlg,
   parseMessageLine_defaultJsonLine _, rfl, rfl⟩

/-- Witness for C8: a `WARN` call with a duplicated call tag and an error
argument against a `DEBUG` logger round-trips through the JSON line. -/
theorem C8_json_roundtrip_witness :
    ∃ b m, (Logger.mk "DEBUG" ["app.js"] [sinkA, sinkB] .allDest0WarnDest1Fn).doLog
        "2016-01-01T00:00:00.000Z" "WARN" (.many ["x", "x"])
        (.err "boom" "Error: boom\n    at z") [] = some (b, m)
      ∧ parseMessageLine (defaultJsonLine m) = some m
      ∧ m.level = "WARN"
      ∧ m.tags = ["app.js"] ++ (TagsArg.many ["x", "x"]).toList :=
  C8_json_roundtrip _ "2016-01-01T00:00:00.000Z" "WARN" (.many ["x", "x"])
    (.err "boom" "Error: boom\n    at z") [] (by decide)

end NodeLogger

/-! ## C9: the process-wide last-instance singleton -/

namespace NodeLogger

/-- Resolving a passed-through stream is the identity. -/
theorem resolveDest_sink (env : ProcEnv) (s : Sink) : resolveDest env (.sink s) = s := rfl

/-- **C9.**  When a previously constructed instance exists, both creation
operations clone its resolved options: the supplied `opts` argument does
not occur on the right-hand side, and the constructed logger differs from
the previous instance only by its tag set (`callerFile :: tags`). -/
theorem C9_clone_ignores_options (env : ProcEnv) (i : Logger) (opts : CtorOptions)
    (cf : String) (tags : List String) (h : checkLoglevel i.level = true) :
    createFromArguments env (some i) opts cf tags =
      some ⟨i.level, cf :: tags, i.destinations, i.logFunction⟩
    ∧ createFromConfigFile env (some i) opts cf tags =
      some ⟨i.level, cf :: tags, i.destinations, i.logFunction⟩ := by
  have hctor : loggerCtor env i.getOptions.1 (cf :: tags) =
      some ⟨i.level, cf :: tags, i.destinations, i.logFunction⟩ := by
    simp [loggerCtor, Logger.getOptions, setLogFunction, h, List.map_map,
      Function.comp_def, resolveDest_sink]
  exact ⟨hctor, hctor⟩

/-- Witness for C9: a second construction against a cached `WARN` logger
ignores a `DEBUG` options argument entirely. -/
theorem C9_clone_ignores_options_witness :
    createFromArguments ⟨⟨10, some true⟩, ⟨11, some true⟩, fun _ => ⟨12, none⟩⟩
        (some ⟨"WARN", ["first.js"], [sinkA, sinkB], .custom 5⟩)
        { level := some "DEBUG", destinations := some [.name "stdout"],
          logFunction := some (.name "allDest0WarnDest1") }
        "second.js" ["extra"] =
      some ⟨"WARN", ["second.js", "extra"], [sinkA, sinkB], .custom 5⟩ :=
  (C9_clone_ignores_options _ _ _ "second.js" ["extra"] (by decide)).1

end NodeLogger

/-! ## C10: level-token consumption by the generic log operations -/

namespace NodeLogger

/-- A string inside the enumeration is recognised as a level token. -/
theorem levelTokenOf_mem {s : String} (h : s ∈ logLevelNames) :
    levelTokenOf (.str s) = some s := by
  have h' : (-1 : Int) < jsIndexOf s logLevelNames := by
    have := jsIndexOf_nonneg_of_mem h
    omega
  simp [levelTokenOf, h']

/-- A string outside the enumeration is not a level token. -/
theorem levelTokenOf_not_mem {s : String} (h : s ∉ logLevelNames) :
    levelTokenOf (.str s) = none := by
  have hn := (jsIndexOf_eq_neg_one_iff s logLevelNames).mpr h
  simp [levelTokenOf, hn]

/-- **C10.**  A first argument exactly equal to a level token is consumed
as the level selection by both `log` and `log2`, even with no following
format argument: the dispatched message carries that level and the text
`"undefined"` (formatting of an undefined primary argument) — never an
`INFO` message whose text is the token.  A first argument not exactly
matching a token is the format string of an `INFO`-level message. -/
theorem C10_level_token_consumption (lg : Logger) (now s : String) (arg2 : JsValue)
    (arg3 : List JsValue) (tgs : List String) (hlg : lg.level ∈ logLevelNames) :
    (s ∈ logLevelNames →
      lg.log now (.str s) .undef [] =
        some (decide (jsIndexOf lg.level logLevelNames ≥ jsIndexOf s logLevelNames),
              ⟨now, s, lg.tags, "undefined", none⟩)
      ∧ lg.log2 now (.str s) (.strArr tgs) .undef [] =
        some (decide (jsIndexOf lg.level logLevelNames ≥ jsIndexOf s logLevelNames)
                || tgs.contains "always",
              ⟨now, s, lg.tags ++ tgs, "undefined", none⟩))
    ∧ (s ∉ logLevelNames →
      lg.log now (.str s) arg2 arg3 =
        some (decide (jsIndexOf lg.level logLevelNames ≥ jsIndexOf "INFO" logLevelNames),
              ⟨now, "INFO", lg.tags,
               utilFormat (.str s) (if arg2 ≠ JsValue.undef then arg2 :: arg3 else arg3),
               none⟩)) := by
  constructor
  · intro hs
    have hred : lg.log now (.str s) .undef [] = lg.doLog now s (.many []) .undef [] := by
      unfold Logger.log
      rw [levelTokenOf_mem hs]
    have hred2 : lg.log2 now (.str s) (.strArr tgs) .undef [] =
        lg.doLog now s (.many tgs) .undef [] := by
      unfold Logger.log2
      rw [levelTokenOf_mem hs]
      rfl
    constructor
    · rw [hred, doLog_eq now s (.many []) .undef [] hlg]
      simp [Logger.doLogMessage, TagsArg.toList, utilFormat, utilInspect]
    · rw [hred2, doLog_eq now s (.many tgs) .undef [] hlg]
      simp [Logger.doLogMessage, TagsArg.toList, utilFormat, utilInspect]
  · intro hs
    have hred : lg.log now (.str s) arg2 arg3 =
        lg.doLog now "INFO" (.many [])
          (.str s) (if arg2 ≠ JsValue.undef then arg2 :: arg3 else arg3) := by
      unfold Logger.log
      rw [levelTokenOf_not_mem hs]
    rw [hred, doLog_eq now "INFO" (.many []) (.str s) _ hlg]
    simp [Logger.doLogMessage, TagsArg.toList]

/-- Witness for C10: against a `DEBUG` logger, `log("ERROR")` dispatches
an `ERROR`-level message with text `"undefined"` while `log("error")`
dispatches an `INFO`-level message with text `"error"`. -/
theorem C10_level_token_consumption_witness :
    (Logger.mk "DEBUG" ["m"] [] (.custom 0)).log "t" (.str "ERROR") .undef [] =
      some (true, ⟨"t", "ERROR", ["m"], "undefined", none⟩)
    ∧ (Logger.mk "DEBUG" ["m"] [] (.custom 0)).log "t" (.str "error") .undef [] =
      some (true, ⟨"t", "INFO", ["m"], "error", none⟩) := by
  have h1 := (C10_level_token_consumption (Logger.mk "DEBUG" ["m"] [] (.custom 0))
    "t" "ERROR" .undef [] [] (by decide)).1 (by decide)
  have h2 := (C10_level_token_consumption (Logger.mk "DEBUG" ["m"] [] (.custom 0))
    "t" "error" .undef [] [] (by decide)).2 (by decide)
  refine ⟨by simpa using h1.1, ?_⟩
  simpa [utilFormat] using h2

end NodeLogger


